import Mathlib

/-!
Verification of the AudioFocus-Manager interference-detection and
playback-arbitration engine against its specification.

The definitions below are a shallow embedding of the Python source:

* `src/worker.py`   — `BackgroundWorker._check_audio_and_control_target`,
  `BackgroundWorker._handle_worker_queue` (the `state_update` and
  `control_app` message handlers);
* `src/settings_window.py` — `SettingsWindow.get_values` whitelist pruning;
* `src/media_controller.py` — `MediaController.get_media_sessions`,
  `MediaController.get_app_name_from_source`;
* `src/config.py`   — `ConfigManager._validate_config` whitelist validation;
* `src/app.py`      — `AudioFocusApp.on_app_control` message producer.

Python dicts are modelled as association lists in insertion order; `None`
and missing keys are modelled with `Option`; exceptions caught at a call
site are modelled as `Option`-valued inputs; `time.time()` is an `Int`
parameter `now` threaded through a cycle.
-/

namespace AudioFocus

/-- Lookup in an association list, modelling Python `dict.get` /
`dict[k]` with the `in` operator; dict keys are unique so first match
equals dict lookup. -/
def dictGet {α : Type} (d : List (String × α)) (k : String) : Option α :=
  match d with
  | [] => none
  | e :: rest => if e.1 = k then some e.2 else dictGet rest k

/-- Python `d[k] = v` on a dict: replaces the value in place when the key
is present, otherwise appends at the end (insertion order). -/
def dictInsert {α : Type} (d : List (String × α)) (k : String) (v : α) :
    List (String × α) :=
  if (dictGet d k).isSome then
    d.map (fun e => if e.1 = k then (k, v) else e)
  else
    d ++ [(k, v)]

/-- One record produced by the audio sampler (`audio_monitor.py`): the
fields of the per-app dict that `_check_audio_and_control_target` reads.
The sampler always sets `process_name`; `none` models a missing key. -/
structure AudioApp where
  pid : Option Int
  process_name : Option String
  is_playing : Bool
deriving DecidableEq

/-- One whitelist entry value as the worker reads it from
`config_manager.get('audio.whitelist')`.  Every whitelist that reaches
the worker (the defaults in `config.py`, a migrated legacy list, or a
`_validate_config` output) carries a `mode` key in each entry, so `mode`
is a plain string; `delay_seconds` may be absent (the defaults omit it)
and `settings.get('delay_seconds', 2)` supplies 2. -/
structure WSettings where
  mode : String
  delay_seconds : Option Int
deriving DecidableEq

/-- The target record `target_app_info`: `source` is always present
(`target_app_info['source']`), `pid` is read with `.get('pid')`. -/
structure TargetInfo where
  pid : Option Int
  source : String
deriving DecidableEq

/-- The slice of a `last_known_state` session record that the control
step reads: `.get('status')`. -/
structure SessionState where
  status : Option String
deriving DecidableEq

/-- The mutable fields of `BackgroundWorker` that the embedded methods
read or write.  `last_known_state` is `none` when the Python attribute
is `None`. -/
structure WorkerState where
  target_app_info : Option TargetInfo
  was_paused_by_app : Bool
  was_manually_paused : Bool
  delay_timers : List (String × Int)
  last_known_state : Option (List (String × SessionState))
deriving DecidableEq

/-- Messages the worker puts on `ui_queue` from
`_check_audio_and_control_target`. -/
inductive UIMsg where
  | set_paused_flag (b : Bool)
  | target_closed
deriving DecidableEq

/-- `worker.py` line 196: the set comprehension
`{app['process_name'] for app in audio_apps if app.get('is_playing')}`.
Modelled as a list whose membership is the set membership. -/
def playingAppNames (audio_apps : List AudioApp) : List String :=
  audio_apps.filterMap (fun a => if a.is_playing then a.process_name else none)

/-- `worker.py` lines 197-200: delete every `delay_timers` key that is
not in `playing_app_names` (equivalently, keep the keys that are). -/
def cleanTimers (timers : List (String × Int)) (playing : List String) :
    List (String × Int) :=
  timers.filter (fun e => decide (e.1 ∈ playing))

/-- `worker.py` lines 202-235: the interference scan.  Walks the audio
apps in order, threading the `delay_timers` dict, and stops at the first
interfering app (`break`).  Returns (`is_interfering`, final timers).
Note that the mode comparisons in the source are against the literal
strings `"忽略"` and `"延时"`. -/
def scanApps (whitelist : List (String × WSettings)) (target_pid : Option Int)
    (now : Int) :
    List AudioApp → List (String × Int) → Bool × List (String × Int)
  | [], timers => (false, timers)
  | app :: rest, timers =>
    if ¬app.is_playing ∨ app.pid = target_pid then
      scanApps whitelist target_pid now rest timers
    else
      match app.process_name with
      | none => scanApps whitelist target_pid now rest timers
      | some app_name =>
        if app_name = "" then
          scanApps whitelist target_pid now rest timers
        else
          match dictGet whitelist app_name with
          | none => (true, timers)
          | some s =>
            if s.mode = "忽略" then
              scanApps whitelist target_pid now rest timers
            else if s.mode = "延时" then
              match dictGet timers app_name with
              | none =>
                scanApps whitelist target_pid now rest (timers ++ [(app_name, now)])
              | some started =>
                if now - started < s.delay_seconds.getD 2 then
                  scanApps whitelist target_pid now rest timers
                else (true, timers)
            else (true, timers)

/-- `latest_sessions.get(target_source, {}).get('status')`. -/
def statusOf (sessions : List (String × SessionState)) (src : String) :
    Option String :=
  match dictGet sessions src with
  | some ss => ss.status
  | none => none

/-- Result of one run of `_check_audio_and_control_target`: the updated
worker state, the `control_media` calls issued (source, command), and
the messages put on `ui_queue`. -/
structure CheckResult where
  state : WorkerState
  commands : List (String × String)
  ui_msgs : List UIMsg
deriving DecidableEq

/-- `worker.py` lines 187-265: `_check_audio_and_control_target`.
`whitelist` is `config_manager.get('audio.whitelist', {})`,
`ignore_manual_pause` is `config_manager.get('general.ignore_manual_pause',
False)`, `now` is `time.time()`.  `self.last_known_state or {}` maps both
`None` and the empty dict to the empty dict, which `Option.getD []`
reproduces. -/
def checkAudioAndControlTarget (whitelist : List (String × WSettings))
    (ignore_manual_pause : Bool) (now : Int)
    (st : WorkerState) (audio_apps : List AudioApp) : CheckResult :=
  match st.target_app_info with
  | none => ⟨st, [], []⟩
  | some target =>
    let timers1 := cleanTimers st.delay_timers (playingAppNames audio_apps)
    let scanned := scanApps whitelist target.pid now audio_apps timers1
    let st1 := { st with delay_timers := scanned.2 }
    let latest_sessions := st.last_known_state.getD []
    if dictGet latest_sessions target.source = none then
      ⟨st1, [], [UIMsg.target_closed]⟩
    else if scanned.1 then
      if statusOf latest_sessions target.source = some "Playing" ∧
          st.was_paused_by_app = false then
        ⟨st1, [(target.source, "pause")], [UIMsg.set_paused_flag true]⟩
      else ⟨st1, [], []⟩
    else
      if st.was_paused_by_app then
        if ignore_manual_pause ∧ st.was_manually_paused then
          ⟨st1, [], [UIMsg.set_paused_flag false]⟩
        else
          ⟨st1, [(target.source, "play")], [UIMsg.set_paused_flag false]⟩
      else ⟨st1, [], []⟩

/-- Payload of a `state_update` message: `data.get('target')` and
`data.get('paused', False)`. -/
structure StateUpdateData where
  target : Option TargetInfo
  paused : Bool
deriving DecidableEq

/-- `worker.py` lines 154-159: the `state_update` branch of
`_handle_worker_queue`.  The reset condition is the literal source
condition: `not self.target_app_info or (self.last_known_state and
self.target_app_info['source'] not in self.last_known_state)`, where an
empty `last_known_state` dict is falsy. -/
def handleStateUpdate (st : WorkerState) (d : StateUpdateData) : WorkerState :=
  let st1 := { st with target_app_info := d.target, was_paused_by_app := d.paused }
  let reset : Bool :=
    match d.target with
    | none => true
    | some t =>
      match st.last_known_state with
      | some m => decide (m ≠ [] ∧ dictGet m t.source = none)
      | none => false
  if reset then { st1 with was_manually_paused := false } else st1

/-- Payload of a `control_app` message as the worker reads it:
`data.get('source')`, `data.get('status')`; `command` is carried by the
producer but never read by the worker. -/
structure ControlAppData where
  source : Option String
  status : Option String
  command : Option String
deriving DecidableEq

/-- `worker.py` lines 170-182: the `control_app` branch of
`_handle_worker_queue`.  Returns the new state and the single
`control_media(source, command)` call issued. -/
def handleControlApp (st : WorkerState) (d : ControlAppData) :
    WorkerState × (Option String × String) :=
  let is_target_app : Bool :=
    match st.target_app_info with
    | some t => d.source == some t.source
    | none => false
  let st1 :=
    if is_target_app && d.status == some "Playing" then
      { st with was_manually_paused := true }
    else st
  let cmd := if d.status == some "Playing" then "pause" else "play"
  ({ st1 with last_known_state := none }, (d.source, cmd))

/-- `app.py` lines 641-645: the message `AudioFocusApp.on_app_control`
puts on the worker queue for a `toggle_play_pause` menu command:
`{'source': app_info['source'], 'command': 'toggle'}` — no `status`
key. -/
def onAppControlToggleMsg (source : String) : ControlAppData :=
  { source := some source, status := none, command := some "toggle" }

/-! Theorems about the arbitration engine. -/

/-- C1: the claim states that a playing, non-self session whose whitelist
mode is `normal` (or absent) is flagged as interfering immediately, and
one whose mode is `ignore` is never flagged.  The first and third
conjuncts confirm the `normal`/absent half; the second conjunct shows the
code violates the `ignore` half: the scan compares the mode against the
Chinese UI label `忽略`, while the stored whitelist (the `config.py`
defaults and everything `settings_window.py` saves via `MODE_MAP`) uses
the English value `ignore`, so the repository default entry
`SystemSoundsService.exe: mode ignore` is flagged as interfering.  The
fourth conjunct shows that the Chinese spelling would have been
skipped. -/
theorem ignore_mode_entry_is_flagged_interfering :
    (scanApps [] (some 200) 0
      [⟨some 100, some "other.exe", true⟩] []).1 = true ∧
    (scanApps [("SystemSoundsService.exe", ⟨"ignore", none⟩)] (some 200) 0
      [⟨some 100, some "SystemSoundsService.exe", true⟩] []).1 = true ∧
    (scanApps [("foo.exe", ⟨"normal", some 2⟩)] (some 200) 0
      [⟨some 100, some "foo.exe", true⟩] []).1 = true ∧
    (scanApps [("SystemSoundsService.exe", ⟨"忽略", none⟩)] (some 200) 0
      [⟨some 100, some "SystemSoundsService.exe", true⟩] []).1 = false := by
  decide

/-- C2: the claim states that an app whose whitelist mode is `delay`
with threshold `d` is never flagged while its elapsed play time is below
`d`.  The first conjunct refutes this on the code: an entry with the
stored English mode string `delay` (threshold 3) is flagged on its very
first playing cycle, with no timer ever started, because the scan
compares the mode against the Chinese label `延时`.  The remaining
conjuncts show the delay logic the claim describes does run for the
Chinese spelling: timer started on the first cycle, not flagged while
`now - start < d`, flagged on the first cycle with `now - start ≥ d`. -/
theorem delay_mode_entry_is_flagged_immediately :
    (scanApps [("Discord.exe", ⟨"delay", some 3⟩)] (some 200) 1000
      [⟨some 100, some "Discord.exe", true⟩] []) = (true, []) ∧
    (scanApps [("Discord.exe", ⟨"延时", some 3⟩)] (some 200) 1000
      [⟨some 100, some "Discord.exe", true⟩] []) = (false, [("Discord.exe", 1000)]) ∧
    (scanApps [("Discord.exe", ⟨"延时", some 3⟩)] (some 200) 1002
      [⟨some 100, some "Discord.exe", true⟩] [("Discord.exe", 1000)]).1 = false ∧
    (scanApps [("Discord.exe", ⟨"延时", some 3⟩)] (some 200) 1003
      [⟨some 100, some "Discord.exe", true⟩] [("Discord.exe", 1000)]).1 = true := by
  decide

/-- C3: the claim (and the source comment above `worker.py` line 158)
states that `was_manually_paused` is reset whenever a `state_update`
changes the target, including a change from one session to another.  The
code only resets it when the new target is falsy or its source is absent
from `last_known_state`: processing a `state_update` that switches the
target from session `A` to session `B`, with both sessions present in
the snapshot, leaves `was_manually_paused` true. -/
theorem manual_pause_survives_target_change :
    handleStateUpdate
      { target_app_info := some ⟨some 1, "A"⟩, was_paused_by_app := false,
        was_manually_paused := true, delay_timers := [],
        last_known_state := some [("A", ⟨some "Playing"⟩), ("B", ⟨some "Playing"⟩)] }
      { target := some ⟨some 2, "B"⟩, paused := false }
      = { target_app_info := some ⟨some 2, "B"⟩, was_paused_by_app := false,
          was_manually_paused := true, delay_timers := [],
          last_known_state := some [("A", ⟨some "Playing"⟩), ("B", ⟨some "Playing"⟩)] } := by
  decide

/-- C5: the claim states that a `control_app` message makes the engine
pause the named session when it is currently Playing and play it
otherwise.  The handler decides on `data.get('status')`, but the only
producer (`AudioFocusApp.on_app_control`) sends `{source, command:
'toggle'}` with no `status` key, so for a session the engine itself
records as Playing the issued command is still `play`. -/
theorem control_app_always_sends_play :
    (handleControlApp
      { target_app_info := some ⟨some 1, "S"⟩, was_paused_by_app := false,
        was_manually_paused := false, delay_timers := [],
        last_known_state := some [("S", ⟨some "Playing"⟩)] }
      (onAppControlToggleMsg "S")).2 = (some "S", "play") := by
  decide

/-- C6: in any cycle where a target is set but its source id is absent
from the latest session snapshot, the interference-check step emits
exactly one `target_closed` message and issues no `control_media`
command. -/
theorem target_absent_emits_single_target_closed :
    ∀ (wl : List (String × WSettings)) (imp : Bool) (now : Int)
      (st : WorkerState) (apps : List AudioApp) (target : TargetInfo),
      st.target_app_info = some target →
      dictGet (st.last_known_state.getD []) target.source = none →
      (checkAudioAndControlTarget wl imp now st apps).commands = [] ∧
      (checkAudioAndControlTarget wl imp now st apps).ui_msgs = [UIMsg.target_closed] := by
  intro wl imp now st apps target htgt habs
  simp only [checkAudioAndControlTarget, htgt]
  simp [habs]

/-- Witness for C6 at a concrete input: target `T`, no snapshot yet. -/
theorem target_absent_emits_single_target_closed_witness :
    (checkAudioAndControlTarget [] false 0
      { target_app_info := some ⟨some 1, "T"⟩, was_paused_by_app := false,
        was_manually_paused := false, delay_timers := [],
        last_known_state := none } []).commands = [] ∧
    (checkAudioAndControlTarget [] false 0
      { target_app_info := some ⟨some 1, "T"⟩, was_paused_by_app := false,
        was_manually_paused := false, delay_timers := [],
        last_known_state := none } []).ui_msgs = [UIMsg.target_closed] :=
  target_absent_emits_single_target_closed [] false 0
    { target_app_info := some ⟨some 1, "T"⟩, was_paused_by_app := false,
      was_manually_paused := false, delay_timers := [],
      last_known_state := none } [] ⟨some 1, "T"⟩ rfl rfl

/-- C4: when interference has cleared (the scan reports no interferer)
while `was_paused_by_app` is true and the target is still in the
snapshot: with the ignore-manual-pause option enabled and
`was_manually_paused` set, the engine issues no command and emits
exactly one `set_paused_flag false`; in every other case it issues
exactly one `play` command to the target and emits exactly one
`set_paused_flag false`. -/
theorem resume_respects_manual_pause :
    ∀ (wl : List (String × WSettings)) (imp : Bool) (now : Int)
      (st : WorkerState) (apps : List AudioApp) (target : TargetInfo),
      st.target_app_info = some target →
      st.was_paused_by_app = true →
      (dictGet (st.last_known_state.getD []) target.source).isSome = true →
      (scanApps wl target.pid now apps
        (cleanTimers st.delay_timers (playingAppNames apps))).1 = false →
      ((imp = true ∧ st.was_manually_paused = true) →
        (checkAudioAndControlTarget wl imp now st apps).commands = [] ∧
        (checkAudioAndControlTarget wl imp now st apps).ui_msgs
          = [UIMsg.set_paused_flag false]) ∧
      (¬(imp = true ∧ st.was_manually_paused = true) →
        (checkAudioAndControlTarget wl imp now st apps).commands
          = [(target.source, "play")] ∧
        (checkAudioAndControlTarget wl imp now st apps).ui_msgs
          = [UIMsg.set_paused_flag false]) := by
  intro wl imp now st apps target htgt hpaused hpresent hscan
  have hne : dictGet (st.last_known_state.getD []) target.source ≠ none :=
    Option.isSome_iff_ne_none.mp hpresent
  simp only [checkAudioAndControlTarget, htgt]
  constructor
  · intro hmanual
    simp [hne, hscan, hpaused, hmanual.1, hmanual.2]
  · intro hmanual
    simp [hne, hscan, hpaused, hmanual]

/-- Witness for C4 at a concrete input: option enabled, manual pause
recorded, target `T` paused in the snapshot, no audio apps. -/
theorem resume_respects_manual_pause_witness :
    (checkAudioAndControlTarget [] true 0
      { target_app_info := some ⟨some 1, "T"⟩, was_paused_by_app := true,
        was_manually_paused := true, delay_timers := [],
        last_known_state := some [("T", ⟨some "Paused"⟩)] } []).commands = [] ∧
    (checkAudioAndControlTarget [] true 0
      { target_app_info := some ⟨some 1, "T"⟩, was_paused_by_app := true,
        was_manually_paused := true, delay_timers := [],
        last_known_state := some [("T", ⟨some "Paused"⟩)] } []).ui_msgs
      = [UIMsg.set_paused_flag false] :=
  (resume_respects_manual_pause [] true 0
    { target_app_info := some ⟨some 1, "T"⟩, was_paused_by_app := true,
      was_manually_paused := true, delay_timers := [],
      last_known_state := some [("T", ⟨some "Paused"⟩)] } [] ⟨some 1, "T"⟩
    rfl rfl (by decide) (by decide)).1 ⟨rfl, rfl⟩

/-- Appending a fresh key at the end of a dict does not change the
lookup of a different key. -/
theorem dictGet_append_single {α : Type} (l : List (String × α)) (k x : String)
    (v : α) (hne : x ≠ k) : dictGet (l ++ [(k, v)]) x = dictGet l x := by
  induction l with
  | nil => simp [dictGet, Ne.symm hne]
  | cons e rest ih => by_cases he : e.1 = x <;> simp [dictGet, he, ih]

/-- A name outside the playing set has no entry left after the timer
cleanup step. -/
theorem dictGet_cleanTimers (timers : List (String × Int)) (playing : List String)
    (name : String) (hnot : name ∉ playing) :
    dictGet (cleanTimers timers playing) name = none := by
  induction timers with
  | nil => rfl
  | cons e rest ih =>
    unfold cleanTimers at ih ⊢
    by_cases hmem : e.1 ∈ playing
    · have hne : e.1 ≠ name := fun h => hnot (h ▸ hmem)
      simpa [List.filter_cons, hmem, dictGet, hne] using ih
    · simpa [List.filter_cons, hmem] using ih

/-- A name outside the playing set of the head app is outside the
playing set of the tail as well. -/
theorem not_mem_playing_cons {name : String} {a : AudioApp} {rest : List AudioApp}
    (h : name ∉ playingAppNames (a :: rest)) : name ∉ playingAppNames rest := by
  simp only [playingAppNames, List.filterMap_cons] at h ⊢
  cases hfa : (if a.is_playing then a.process_name else none) with
  | none => rw [hfa] at h; exact h
  | some b => rw [hfa] at h; exact fun hm => h (List.mem_cons_of_mem _ hm)

/-- The process name of a playing app is in the playing set. -/
theorem head_mem_playing {a : AudioApp} {rest : List AudioApp} {n : String}
    (hp : a.is_playing = true) (hn : a.process_name = some n) :
    n ∈ playingAppNames (a :: rest) := by
  simp [playingAppNames, List.filterMap_cons, hp, hn]

/-- The interference scan never creates a timer entry for a name that is
not in the playing set: every insertion it performs is keyed by the
process name of a playing app. -/
theorem scan_preserves_absent_timer (wl : List (String × WSettings))
    (tp : Option Int) (now : Int) (name : String) :
    ∀ (apps : List AudioApp) (timers : List (String × Int)),
      name ∉ playingAppNames apps →
      dictGet timers name = none →
      dictGet (scanApps wl tp now apps timers).2 name = none := by
  intro apps
  induction apps with
  | nil => intro timers _ h; simpa [scanApps] using h
  | cons app rest ih =>
    intro timers hnot htimers
    have hnotrest : name ∉ playingAppNames rest := not_mem_playing_cons hnot
    simp only [scanApps]
    split
    · exact ih timers hnotrest htimers
    · next hguard =>
      have hplay : app.is_playing = true := by
        rcases not_or.mp hguard with ⟨h1, _⟩
        simpa using h1
      split
      · exact ih timers hnotrest htimers
      · next app_name hpn =>
        split
        · exact ih timers hnotrest htimers
        · split
          · exact htimers
          · next s hs =>
            split
            · exact ih timers hnotrest htimers
            · split
              · split
                · have hne : name ≠ app_name := by
                    intro h
                    exact hnot (h ▸ head_mem_playing hplay hpn)
                  exact ih _ hnotrest
                    ((dictGet_append_single timers app_name name now hne).trans htimers)
                · split
                  · exact ih timers hnotrest htimers
                  · exact htimers
              · exact htimers

/-- C7 counterexample: the claim states that a delay-timer entry whose
process is not in the playing set is removed during the cycle.  In a
cycle with no target set, `_check_audio_and_control_target` returns
before the cleanup step, so a stale entry for `X` survives a cycle in
which `X` is not playing.  Such a state is reachable: the timer is
created while a target is set, then the user clears the target and the
app stops playing. -/
theorem stale_timer_survives_targetless_cycle :
    ("X" ∉ playingAppNames []) ∧
    dictGet ((checkAudioAndControlTarget [] false 5
      { target_app_info := none, was_paused_by_app := false,
        was_manually_paused := false, delay_timers := [("X", 0)],
        last_known_state := none } []).state.delay_timers) "X" = some 0 := by
  decide

/-- C7 amended: in any cycle in which a target is set (so the
interference check actually runs), every delay-timer entry whose process
name is not in the currently-playing set is gone from the timer map
after the check — the cleanup removes it and the scan cannot
re-insert it, so a later playing streak starts a fresh timer. -/
theorem timer_removed_when_not_playing :
    ∀ (wl : List (String × WSettings)) (imp : Bool) (now : Int)
      (st : WorkerState) (apps : List AudioApp) (target : TargetInfo)
      (name : String),
      st.target_app_info = some target →
      name ∉ playingAppNames apps →
      dictGet (checkAudioAndControlTarget wl imp now st apps).state.delay_timers
        name = none := by
  intro wl imp now st apps target name htgt hnot
  have h1 : dictGet (cleanTimers st.delay_timers (playingAppNames apps)) name = none :=
    dictGet_cleanTimers _ _ _ hnot
  have h2 := scan_preserves_absent_timer wl target.pid now name apps _ hnot h1
  simp only [checkAudioAndControlTarget, htgt]
  repeat' split
  all_goals simpa using h2

/-- Witness for the amended C7 at a concrete input: target set, stale
timer for `X`, no app playing. -/
theorem timer_removed_when_not_playing_witness :
    ("X" ∉ playingAppNames []) ∧
    dictGet ((checkAudioAndControlTarget [] false 5
      { target_app_info := some ⟨some 1, "T"⟩, was_paused_by_app := false,
        was_manually_paused := false, delay_timers := [("X", 3)],
        last_known_state := none } []).state.delay_timers) "X" = none :=
  ⟨by decide,
   timer_removed_when_not_playing [] false 5
     { target_app_info := some ⟨some 1, "T"⟩, was_paused_by_app := false,
       was_manually_paused := false, delay_timers := [("X", 3)],
       last_known_state := none } [] ⟨some 1, "T"⟩ "X" rfl (by decide)⟩

/-! Settings window: whitelist-save pruning (`settings_window.py`). -/

/-- `settings_window.py` lines 316-322 (`SettingsWindow.get_values`):
`cleaned_whitelist = {app: settings for app, settings in
self.whitelist.items() if settings.get('mode') != 'normal'}`.  The
values held in `self.whitelist` come from the loaded configuration or
from `_on_update_whitelist` (which also pops entries switched back to
`normal`), so each carries a `mode` key. -/
def cleanedWhitelist (wl : List (String × WSettings)) : List (String × WSettings) :=
  wl.filter (fun e => e.2.mode != "normal")

/-- C8: whitelist-save pruning is idempotent — pruning an already pruned
whitelist changes nothing. -/
theorem whitelist_pruning_idempotent :
    ∀ wl : List (String × WSettings),
      cleanedWhitelist (cleanedWhitelist wl) = cleanedWhitelist wl := by
  intro wl
  induction wl with
  | nil => rfl
  | cons e rest ih =>
    unfold cleanedWhitelist at ih ⊢
    cases hm : (e.2.mode != "normal") <;> simp [List.filter_cons, hm, ih]

/-! Media session provider (`media_controller.py`). -/

/-- The fields of a media-properties read
(`try_get_media_properties_async`) that `get_media_sessions` copies. -/
structure MediaProps where
  title : String
  artist : String
deriving DecidableEq

/-- One OS session as `get_media_sessions` observes it.
`media_properties` is `none` when `try_get_media_properties_async`
raises or yields a falsy value; `playback_status` is `none` when
`get_playback_info` raises or yields a falsy value — both are caught by
the per-session handler, which skips the session. -/
structure RawSession where
  source_app_user_model_id : String
  media_properties : Option MediaProps
  playback_status : Option Int
deriving DecidableEq

/-- `media_controller.py` lines 24-42: `get_app_name_from_source`. -/
def getAppNameFromSource (source_id : String) : String :=
  let tailCase :=
    match source_id.splitOn "." with
    | [] => source_id
    | name :: _ => if name.endsWith "AB" then name.dropRight 2 else name
  if source_id.contains '!' then
    let app_part := (source_id.splitOn "!").headD ""
    match (app_part.splitOn ".").get? 1 with
    | some second => (second.splitOn "_").headD ""
    | none => tailCase
  else tailCase

/-- `media_controller.py` lines 66-70: map a playback-status code to the
status string. -/
def statusString (status : Int) : String :=
  if status = 4 then "Playing"
  else if status = 5 then "Paused"
  else if status = 3 then "Stopped"
  else "Unknown"

/-- One record of the list `get_media_sessions` returns. -/
structure SessionInfo where
  source : String
  display_name : String
  title : String
  artist : String
  status : String
deriving DecidableEq

/-- `media_controller.py` lines 59-83: the per-session loop body.
Returns `none` exactly when the session is skipped (a property read
failed or was falsy). -/
def readSession (s : RawSession) : Option SessionInfo :=
  match s.media_properties, s.playback_status with
  | some info, some pb =>
    some { source := s.source_app_user_model_id,
           display_name := getAppNameFromSource s.source_app_user_model_id,
           title := info.title, artist := info.artist,
           status := statusString pb }
  | _, _ => none

/-- `media_controller.py` lines 44-88: `get_media_sessions`.  The outer
argument is `none` when `self.manager` is not initialized (warn, return
`[]`); `some none` when `manager.get_sessions()` raises (caught, the
accumulated — empty — list is returned); `some (some raws)` when the
session list is obtained. -/
def getMediaSessions (manager : Option (Option (List RawSession))) :
    List SessionInfo :=
  match manager with
  | none => []
  | some none => []
  | some (some raws) => raws.filterMap readSession

/-- C9: the provider fails softly.  With no manager, or with
`get_sessions` itself failing, the result is the empty list; a failed
read of one session's properties removes exactly that session from the
result and leaves every other session in place. -/
theorem media_sessions_fail_soft :
    getMediaSessions none = [] ∧
    getMediaSessions (some none) = [] ∧
    ∀ (pre : List RawSession) (s : RawSession) (post : List RawSession),
      readSession s = none →
      getMediaSessions (some (some (pre ++ s :: post)))
        = getMediaSessions (some (some (pre ++ post))) := by
  refine ⟨rfl, rfl, ?_⟩
  intro pre s post hs
  simp [getMediaSessions, List.filterMap_append, List.filterMap_cons, hs]

/-- Witness for C9 at a concrete input: a readable session followed by
one whose properties read failed. -/
theorem media_sessions_fail_soft_witness :
    readSession ⟨"Bad", none, some 4⟩ = none ∧
    getMediaSessions (some (some [⟨"Good", some ⟨"t", "a"⟩, some 4⟩,
        ⟨"Bad", none, some 4⟩]))
      = getMediaSessions (some (some [⟨"Good", some ⟨"t", "a"⟩, some 4⟩])) :=
  ⟨rfl, media_sessions_fail_soft.2.2 [⟨"Good", some ⟨"t", "a"⟩, some 4⟩]
    ⟨"Bad", none, some 4⟩ [] rfl⟩

/-! Configuration loader: whitelist validation (`config.py`). -/

/-- A YAML value as `yaml.safe_load` produces it, restricted to the
shapes the whitelist validation distinguishes.  Floats are not modelled;
the claims do not exercise them. -/
inductive YVal where
  | null
  | bool (b : Bool)
  | int (n : Int)
  | str (s : String)
  | list (xs : List YVal)
  | dict (entries : List (String × YVal))

/-- Python `str(...)` on a YAML value.  Scalars follow CPython; the
rendering of containers is abstracted to a fixed placeholder, which no
claim depends on. -/
def pyStr : YVal → String
  | .null => "None"
  | .bool b => if b then "True" else "False"
  | .int n => toString n
  | .str s => s
  | .list _ => "[...]"
  | .dict _ => "\x7b...\x7d"

/-- Python `int(...)` on a YAML value: `none` models the raised
`TypeError`/`ValueError`. -/
def pyInt : YVal → Option Int
  | .int n => some n
  | .bool b => some (if b then 1 else 0)
  | .str s => s.toInt?
  | _ => none

/-- The record `_validate_config` stores per whitelist entry:
`{'mode': str(settings['mode']), 'delay_seconds':
int(settings.get('delay_seconds', 2))}`. -/
structure ValidatedEntry where
  mode : String
  delay_seconds : Int
deriving DecidableEq

/-- An input entry the validation accepts: a dict with a `'mode'`
key. -/
def isDictWithMode : YVal → Bool
  | .dict d => (dictGet d "mode").isSome
  | _ => false

/-- `config.py` lines 72-78, as a fold over the input whitelist in
insertion order, accumulating the `validated_whitelist` dict.  `none`
models the `int(...)` call raising, which makes `_load_config` discard
the whole user configuration. -/
def validateWhitelistAux (acc : List (String × ValidatedEntry)) :
    List (String × YVal) → Option (List (String × ValidatedEntry))
  | [] => some acc
  | (app, settings) :: rest =>
    match settings with
    | .dict d =>
      match dictGet d "mode" with
      | some m =>
        match pyInt ((dictGet d "delay_seconds").getD (YVal.int 2)) with
        | some delay =>
          validateWhitelistAux (dictInsert acc app ⟨pyStr m, delay⟩) rest
        | none => none
      | none => validateWhitelistAux acc rest
    | _ => validateWhitelistAux acc rest

/-- `config.py` lines 71-79: the whitelist branch of
`_validate_config`.  The YAML mapping keys are already strings, on which
`str(app)` is the identity. -/
def validateWhitelist (wl : List (String × YVal)) :
    Option (List (String × ValidatedEntry)) :=
  validateWhitelistAux [] wl

/-- The provenance of one output entry of the whitelist validation: it
comes from an input entry with the same name whose value is a dict with
a `'mode'` key; its mode is the stringified input mode, its
`delay_seconds` the `int(...)` of the input value with default 2, and it
is exactly 2 whenever the input omits `'delay_seconds'`. -/
def entryFromInput (wl : List (String × YVal)) (e : String × ValidatedEntry) : Prop :=
  ∃ d m, (e.1, YVal.dict d) ∈ wl ∧ dictGet d "mode" = some m ∧
    e.2.mode = pyStr m ∧
    pyInt ((dictGet d "delay_seconds").getD (YVal.int 2)) = some e.2.delay_seconds ∧
    (dictGet d "delay_seconds" = none → e.2.delay_seconds = 2)

/-- An element of a dict after a Python-style insert is either an old
element or the inserted binding. -/
theorem mem_dictInsert {α : Type} {acc : List (String × α)} {k : String} {v : α}
    {e : String × α} (h : e ∈ dictInsert acc k v) : e ∈ acc ∨ e = (k, v) := by
  unfold dictInsert at h
  split at h
  · rcases List.mem_map.mp h with ⟨x, hx, hfx⟩
    by_cases hk : x.1 = k
    · right; rw [← hfx]; simp [hk]
    · left; rw [← hfx]; simpa [hk] using hx
  · rcases List.mem_append.mp h with h1 | h1
    · exact Or.inl h1
    · right; simpa using h1

/-- Provenance is preserved when the input list grows at the front. -/
theorem entryFromInput_cons {wl : List (String × YVal)} {p : String × YVal}
    {e : String × ValidatedEntry} (h : entryFromInput wl e) :
    entryFromInput (p :: wl) e := by
  obtain ⟨d, m, hmem, hm, hmode, hdelay, hdef⟩ := h
  exact ⟨d, m, List.mem_cons_of_mem _ hmem, hm, hmode, hdelay, hdef⟩

/-- Every entry of an accepted validation output is an accumulator entry
or has the provenance `entryFromInput`. -/
theorem validateWhitelistAux_mem :
    ∀ (l : List (String × YVal)) (acc out : List (String × ValidatedEntry)),
      validateWhitelistAux acc l = some out →
      ∀ e ∈ out, e ∈ acc ∨ entryFromInput l e := by
  intro l
  induction l with
  | nil =>
    intro acc out h e he
    simp only [validateWhitelistAux] at h
    cases h
    exact Or.inl he
  | cons p rest ih =>
    intro acc out h e he
    obtain ⟨app, settings⟩ := p
    simp only [validateWhitelistAux] at h
    cases settings with
    | dict d =>
      dsimp only at h
      cases hm : dictGet d "mode" with
      | none =>
        rw [hm] at h
        rcases ih acc out h e he with h1 | h1
        · exact Or.inl h1
        · exact Or.inr (entryFromInput_cons h1)
      | some m =>
        rw [hm] at h
        cases hd : pyInt ((dictGet d "delay_seconds").getD (YVal.int 2)) with
        | none => rw [hd] at h; cases h
        | some delay =>
          rw [hd] at h
          rcases ih _ out h e he with h1 | h1
          · rcases mem_dictInsert h1 with h2 | h2
            · exact Or.inl h2
            · right
              refine ⟨d, m, ?_, hm, ?_, ?_, ?_⟩
              · rw [h2]; exact List.mem_cons_self _ _
              · rw [h2]
              · rw [h2]; exact hd
              · intro h0
                rw [h2]
                rw [h0] at hd
                simp only [Option.getD, pyInt] at hd
                cases hd
                rfl
          · exact Or.inr (entryFromInput_cons h1)
    | null =>
      dsimp only at h
      rcases ih acc out h e he with h1 | h1
      · exact Or.inl h1
      · exact Or.inr (entryFromInput_cons h1)
    | bool b =>
      dsimp only at h
      rcases ih acc out h e he with h1 | h1
      · exact Or.inl h1
      · exact Or.inr (entryFromInput_cons h1)
    | int n =>
      dsimp only at h
      rcases ih acc out h e he with h1 | h1
      · exact Or.inl h1
      · exact Or.inr (entryFromInput_cons h1)
    | str s =>
      dsimp only at h
      rcases ih acc out h e he with h1 | h1
      · exact Or.inl h1
      · exact Or.inr (entryFromInput_cons h1)
    | list xs =>
      dsimp only at h
      rcases ih acc out h e he with h1 | h1
      · exact Or.inl h1
      · exact Or.inr (entryFromInput_cons h1)

/-- Removing an input entry that is not a dict with a `'mode'` key does
not change the validation result, for any accumulator. -/
theorem validateWhitelistAux_drop (app : String) (settings : YVal)
    (hset : isDictWithMode settings = false) (post : List (String × YVal)) :
    ∀ (pre : List (String × YVal)) (acc : List (String × ValidatedEntry)),
      validateWhitelistAux acc (pre ++ (app, settings) :: post)
        = validateWhitelistAux acc (pre ++ post) := by
  intro pre
  induction pre with
  | nil =>
    intro acc
    simp only [List.nil_append]
    cases settings with
    | dict d =>
      simp only [isDictWithMode, Option.isSome] at hset
      cases hm : dictGet d "mode" with
      | none => simp only [validateWhitelistAux, hm]
      | some m => rw [hm] at hset; cases hset
    | null => rfl
    | bool b => rfl
    | int n => rfl
    | str s => rfl
    | list xs => rfl
  | cons p rest ih =>
    intro acc
    obtain ⟨a2, s2⟩ := p
    simp only [List.cons_append, validateWhitelistAux]
    cases s2 with
    | dict d =>
      dsimp only
      cases hm : dictGet d "mode" with
      | none => exact ih acc
      | some m =>
        cases hd : pyInt ((dictGet d "delay_seconds").getD (YVal.int 2)) with
        | none => rfl
        | some delay => exact ih _
    | null => exact ih acc
    | bool b => exact ih acc
    | int n => exact ih acc
    | str s => exact ih acc
    | list xs => exact ih acc

/-- C10: for every user configuration the whitelist validation accepts,
each entry of the resulting whitelist stems from an input entry that is
a dict with a `'mode'` key, carries the stringified mode and the
integer `delay_seconds` of the input (2 when the input omits it); and
an input entry that is not a dict with a `'mode'` key is silently
dropped — removing it does not change the result. -/
theorem whitelist_validation_shape :
    (∀ (wl : List (String × YVal)) (out : List (String × ValidatedEntry)),
      validateWhitelist wl = some out → ∀ e ∈ out, entryFromInput wl e) ∧
    (∀ (pre : List (String × YVal)) (app : String) (settings : YVal)
       (post : List (String × YVal)),
      isDictWithMode settings = false →
      validateWhitelist (pre ++ (app, settings) :: post)
        = validateWhitelist (pre ++ post)) := by
  constructor
  · intro wl out h e he
    rcases validateWhitelistAux_mem wl [] out h e he with h1 | h1
    · exact absurd h1 (List.not_mem_nil e)
    · exact h1
  · intro pre app settings post hset
    exact validateWhitelistAux_drop app settings hset post pre []

/-- Witness for C10 at a concrete input: an accepted config with one
dict entry (mode present, delay omitted) and one non-dict entry. -/
theorem whitelist_validation_shape_witness :
    entryFromInput
      [("a.exe", YVal.dict [("mode", YVal.str "ignore")]), ("b", YVal.str "x")]
      ("a.exe", ⟨"ignore", 2⟩) ∧
    validateWhitelist
      [("b", YVal.str "x"), ("a.exe", YVal.dict [("mode", YVal.str "ignore")])]
      = validateWhitelist [("a.exe", YVal.dict [("mode", YVal.str "ignore")])] :=
  ⟨whitelist_validation_shape.1
      [("a.exe", YVal.dict [("mode", YVal.str "ignore")]), ("b", YVal.str "x")]
      [("a.exe", ⟨"ignore", 2⟩)] (by decide) ("a.exe", ⟨"ignore", 2⟩) (by decide),
   whitelist_validation_shape.2 [] "b" (YVal.str "x")
      [("a.exe", YVal.dict [("mode", YVal.str "ignore")])] (by decide)⟩

end AudioFocus
